import Mathlib

/-!
Verification of the CBT chatbot phase controller (`backend.py`).

The embedding models `CBTChatbot`: its session state (`phase`,
`hw_assigned`, conversation memory), the `soften` lexical substitution,
and the `stream` turn-processing entry point.  The external
language-model service is modelled as an oracle (`LLM`): a record of
functions giving, for each prompt template and for the phase selector,
the text the service would return for a given history and user input.
Each turn records which generation calls were made (`Call`), so that
claims about "no generation call occurs" are statable.
-/

namespace CBTChatbot

/-- The five phases of the scripted conversation.  In the source the
phase is a string field `self.phase`, only ever assigned one of the five
literals `"agenda"`, `"exploration"`, `"technique"`, `"homework"`,
`"closing"`. -/
inductive Phase
  | agenda
  | exploration
  | technique
  | homework
  | closing
deriving DecidableEq, Repr

/-- Role of a transcript entry in conversation memory. -/
inductive Role
  | user
  | assistant
deriving DecidableEq, Repr

/-- Session state: current phase, the homework-assigned flag
(`self.hw_assigned`), and the conversation memory
(`self.memory.chat_memory`). -/
structure State where
  phase : Phase
  hw_assigned : Bool
  history : List (Role × String)
deriving DecidableEq, Repr

/-- State right after `__init__` (lines 144-145): phase `"agenda"`,
`hw_assigned = False`, empty memory. -/
def initState : State := ⟨Phase.agenda, false, []⟩

/-- The external generation service, as an oracle: for each chain
(`phase_selector`, `agenda_chain`, ..., `closing_chain`), the text it
returns given the serialized history and the current user input. -/
structure LLM where
  classify : List (Role × String) → String → String
  agenda : List (Role × String) → String → String
  explore : List (Role × String) → String → String
  technique : List (Role × String) → String → String
  homework : List (Role × String) → String → String
  closing : List (Role × String) → String → String

/-- One generation-service request made during a turn. -/
inductive Call
  | classifyCall
  | agendaCall
  | exploreCall
  | techniqueCall
  | homeworkCall
  | closingCall
deriving DecidableEq, Repr

/-- Result of one `stream` call: the post-turn session state, the
returned text, and the generation calls made, in order. -/
structure TurnResult where
  state : State
  output : String
  calls : List Call
deriving Repr

/- ── Text helpers (ASCII-faithful models of the Python string ops) ── -/

/-- Map every character to lower case (`str.lower()` on the ASCII
fragment the controller manipulates). -/
def lowerL (l : List Char) : List Char := l.map Char.toLower

/-- `str.lower()` as a `String` operation. -/
def lowerStr (s : String) : String := ⟨lowerL s.toList⟩

/-- Whether `hay` starts with `pat` (character-exact). -/
def startsWithL : List Char → List Char → Bool
  | [], _ => true
  | _ :: _, [] => false
  | a :: as, b :: bs => a == b && startsWithL as bs

/-- Whether `pat` occurs as a contiguous substring of `hay`: Python's
`pat in hay`. -/
def hasSubL (pat : List Char) : List Char → Bool
  | [] => startsWithL pat []
  | c :: cs => startsWithL pat (c :: cs) || hasSubL pat cs

/-- Python `tok in low` for strings. -/
def hasTok (low : String) (tok : String) : Bool :=
  hasSubL tok.toList low.toList

/-- Python whitespace (for `str.strip()`). -/
def isWS (c : Char) : Bool :=
  c == ' ' || c == '\t' || c == '\n' || c == '\r' || c == '\x0b' || c == '\x0c'

/-- `str.strip()`: drop whitespace at both ends. -/
def stripStr (s : String) : String :=
  ⟨((s.toList.dropWhile isWS).reverse.dropWhile isWS).reverse⟩

/-- Fueled scan for `replaceCI`; each step consumes at least one input
character, so fuel equal to the input length always suffices. -/
def replaceCIAux (pat rep : List Char) : Nat → List Char → List Char
  | _, [] => []
  | 0, l => l
  | fuel + 1, c :: cs =>
    if pat ≠ [] ∧ lowerL ((c :: cs).take pat.length) = pat then
      rep ++ replaceCIAux pat rep fuel ((c :: cs).drop pat.length)
    else
      c :: replaceCIAux pat rep fuel cs

/-- One pass of `re.sub(pat, rep, text, flags=re.IGNORECASE)` for a
literal all-lowercase pattern: replace each leftmost non-overlapping
case-insensitive occurrence of `pat` by `rep`. -/
def replaceCI (pat rep l : List Char) : List Char :=
  replaceCIAux pat rep l.length l

/-- `CBTChatbot.soften` (lines 149-153): substitute `hopeless ↦
emotionally drained` then `depressed ↦ feeling low`, case-insensitively,
as substrings. -/
def soften (text : String) : String :=
  ⟨replaceCI "depressed".toList "feeling low".toList
    (replaceCI "hopeless".toList "emotionally drained".toList text.toList)⟩

/- ── The controller configuration ── -/

/-- `self.ack_tokens` (line 146). -/
def ack_tokens : List String := ["yes", "okay", "sure", "will", "got it", "thanks"]

/-- `self.decline_tokens` (line 147). -/
def decline_tokens : List String := ["not", "don\x27t", "dont", "no", "nah", "nothing", "else"]

/-- The fixed homework-wait literal returned at lines 212-215. -/
def waitingPrompt : String :=
  "Feel free to let me know when you’re ready to try that exercise, or if you’d like to explore another technique."

/-- The synonym table of the phase selector (lines 176-183). -/
def phaseMap (sel : String) : Option Phase :=
  if sel = "agenda" then some Phase.agenda
  else if sel = "explore" then some Phase.exploration
  else if sel = "exploration" then some Phase.exploration
  else if sel = "technique" then some Phase.technique
  else if sel = "homework" then some Phase.homework
  else if sel = "closing" then some Phase.closing
  else none

/- ── The turn: phase resolution, then dispatch ── -/

/-- Phase resolution (lines 162-188), applied to the state after the
softened user message `u` was appended to memory.  Returns the resolved
state and the generation calls made so far (the phase-selector call,
when it happens). -/
def resolveTurn (llm : LLM) (s : State) (u : String) : State × List Call :=
  if s.phase = Phase.homework ∧ s.hw_assigned = true then
    -- Intercept only when waiting on homework ack (lines 163-168)
    let low := lowerStr u
    if ack_tokens.any (fun tok => hasTok low tok) then
      ({ s with phase := Phase.closing }, [])
    else if (decline_tokens.any (fun dt => hasTok low dt)) ∧ hasTok low "exercise" = true then
      ({ s with phase := Phase.technique }, [])
    else
      (s, [])
  else
    -- Let the model choose the phase dynamically (lines 170-187)
    let sel := lowerStr (stripStr (llm.classify s.history u))
    let s1 :=
      match phaseMap sel with
      | some p => { s with phase := p }
      | none => s
    let s2 := if s1.phase ≠ Phase.homework then { s1 with hw_assigned := false } else s1
    (s2, [Call.classifyCall])

/-- Dispatch to the chosen phase chain (lines 191-225).  A memory-backed
chain call appends the user input and its output to memory; the
homework-wait literal is returned without any generation call. -/
def dispatch (llm : LLM) (s : State) (u : String) (calls : List Call) : TurnResult :=
  match s.phase with
  | Phase.agenda =>
    let out := llm.agenda s.history u
    ⟨{ s with history := s.history ++ [(Role.user, u), (Role.assistant, out)] },
      out, calls ++ [Call.agendaCall]⟩
  | Phase.exploration =>
    let out := llm.explore s.history u
    ⟨{ s with history := s.history ++ [(Role.user, u), (Role.assistant, out)] },
      out, calls ++ [Call.exploreCall]⟩
  | Phase.technique =>
    let out := llm.technique s.history u
    let hist := s.history ++ [(Role.user, u), (Role.assistant, out)]
    ⟨{ s with hw_assigned := false, history := hist }, out, calls ++ [Call.techniqueCall]⟩
  | Phase.homework =>
    if s.hw_assigned = false then
      let out := llm.homework s.history u
      let hist := s.history ++ [(Role.user, u), (Role.assistant, out)]
      ⟨{ s with hw_assigned := true, history := hist }, out, calls ++ [Call.homeworkCall]⟩
    else
      ⟨s, waitingPrompt, calls⟩
  | Phase.closing =>
    let out := llm.closing s.history u
    let hist := s.history ++ [(Role.user, u), (Role.assistant, out)]
    ⟨{ phase := Phase.agenda, hw_assigned := false, history := hist },
      out, calls ++ [Call.closingCall]⟩

/-- The phase-resolution stage of a full turn: soften the input, append
it to memory (line 158), then resolve the phase. -/
def streamResolved (llm : LLM) (s : State) (user_raw : String) : State × List Call :=
  let u := soften user_raw
  resolveTurn llm { s with history := s.history ++ [(Role.user, u)] } u

/-- `CBTChatbot.stream` (lines 155-225): soften, append to memory,
resolve the phase, dispatch. -/
def stream (llm : LLM) (s : State) (user_raw : String) : TurnResult :=
  let u := soften user_raw
  let r := streamResolved llm s user_raw
  dispatch llm r.1 u r.2

/-- `CBTChatbot.__init__` (lines 11-17, 143-147): fails when the
`OPENAI_API_KEY` environment variable is unset (`None`) or empty
(`if not key`); otherwise yields the initial session state. -/
def initCBT : Option String → Except String State
  | none =>
    Except.error "Please set the OPENAI_API_KEY environment variable in Streamlit Cloud secrets."
  | some k =>
    if k = "" then
      Except.error "Please set the OPENAI_API_KEY environment variable in Streamlit Cloud secrets."
    else
      Except.ok initState

/-- States reachable from construction by completed `stream` turns,
with arbitrary generation-service behaviour at each turn. -/
inductive Reachable : State → Prop
  | init : Reachable initState
  | step (llm : LLM) (u : String) {s : State} (h : Reachable s) :
      Reachable (stream llm s u).state

/-- A generation service returning fixed texts; the phase selector
always replies `reply`.  Used for concrete evaluations. -/
def constLLM (reply : String) : LLM where
  classify := fun _ _ => reply
  agenda := fun _ _ => "agenda-output"
  explore := fun _ _ => "explore-output"
  technique := fun _ _ => "technique-output"
  homework := fun _ _ => "homework-output"
  closing := fun _ _ => "closing-output"

/-- A session state waiting on a homework acknowledgment. -/
def sHW : State := ⟨Phase.homework, true, []⟩

/-- A session state in the homework phase with no homework assigned yet. -/
def sHWf : State := ⟨Phase.homework, false, []⟩

/- ── Helper lemmas ── -/

lemma startsWithL_take (pat : List Char) :
    ∀ hay : List Char, startsWithL pat hay = true ↔ List.take pat.length hay = pat := by
  induction pat with
  | nil => intro hay; simp [startsWithL]
  | cons a as ih =>
    intro hay
    cases hay with
    | nil => simp [startsWithL]
    | cons b bs =>
      simp only [startsWithL, List.length_cons, List.take_succ_cons, Bool.and_eq_true,
        beq_iff_eq, List.cons.injEq, ih bs]
      constructor
      · rintro ⟨h1, h2⟩; exact ⟨h1.symm, h2⟩
      · rintro ⟨h1, h2⟩; exact ⟨h1.symm, h2⟩

lemma replaceCIAux_id (pat rep : List Char) :
    ∀ (fuel : Nat) (l : List Char), hasSubL pat (lowerL l) = false →
      replaceCIAux pat rep fuel l = l := by
  intro fuel
  induction fuel with
  | zero => intro l _; cases l <;> rfl
  | succ f ih =>
    intro l h
    cases l with
    | nil => rfl
    | cons c cs =>
      have hl : lowerL (c :: cs) = Char.toLower c :: lowerL cs := by simp [lowerL]
      rw [hl, hasSubL, Bool.or_eq_false_iff] at h
      rw [replaceCIAux, if_neg, ih cs h.2]
      rintro ⟨hne, heq⟩
      have hsw : startsWithL pat (lowerL (c :: cs)) = true := by
        rw [startsWithL_take, lowerL, ← List.map_take]
        exact heq
      rw [hl] at hsw
      rw [hsw] at h
      exact absurd h.1 (by simp)

lemma replaceCI_id (pat rep l : List Char) (h : hasSubL pat (lowerL l) = false) :
    replaceCI pat rep l = l :=
  replaceCIAux_id pat rep l.length l h

/-- Phase resolution never produces an `agenda` or `exploration` state
that still has the homework flag set. -/
lemma resolveTurn_hw (llm : LLM) (s : State) (u : String) :
    ((resolveTurn llm s u).1.phase = Phase.agenda ∨
      (resolveTurn llm s u).1.phase = Phase.exploration) →
    (resolveTurn llm s u).1.hw_assigned = false := by
  unfold resolveTurn
  split
  · rename_i hcond
    dsimp only
    split
    · intro hc; simp at hc
    · split
      · intro hc; simp at hc
      · intro hc
        simp only at hc
        rw [hcond.1] at hc
        simp at hc
  · dsimp only
    split
    · intro _; rfl
    · rename_i hne
      intro hc
      exact absurd (by simpa using hne) (by rcases hc with hc | hc <;> simp [hc])

/-- After dispatch, a set homework flag forces the homework phase,
provided the incoming state has the flag cleared in the
`agenda`/`exploration` cases. -/
lemma dispatch_hw (llm : LLM) (s : State) (u : String) (calls : List Call)
    (h : s.phase = Phase.agenda ∨ s.phase = Phase.exploration → s.hw_assigned = false) :
    (dispatch llm s u calls).state.hw_assigned = true →
    (dispatch llm s u calls).state.phase = Phase.homework := by
  unfold dispatch
  split
  · rename_i hp; intro hc; simp only at hc; rw [h (Or.inl hp)] at hc; exact absurd hc (by simp)
  · rename_i hp; intro hc; simp only at hc; rw [h (Or.inr hp)] at hc; exact absurd hc (by simp)
  · intro hc; simp at hc
  · rename_i hp
    split
    · intro _; exact hp
    · intro _; exact hp
  · intro hc; simp at hc

/-- Invariant preservation: after any completed `stream` turn, the
homework flag can only be set in the homework phase. -/
lemma stream_hw (llm : LLM) (s : State) (u : String) :
    (stream llm s u).state.hw_assigned = true →
    (stream llm s u).state.phase = Phase.homework := by
  unfold stream streamResolved
  exact dispatch_hw llm _ _ _
    (fun hc => resolveTurn_hw llm _ (soften u) hc)

/- ── Claim theorems ── -/

/-- Claim C1: for every session state reachable by completed `stream`
turns, `hw_assigned = true` implies the phase is `homework`; and any
completed turn ending outside `homework` has `hw_assigned = false` (a
transition away from homework resets the flag by the end of the turn). -/
theorem c1_hw_invariant :
    (∀ s : State, Reachable s → s.hw_assigned = true → s.phase = Phase.homework) ∧
    (∀ (llm : LLM) (s : State) (u : String),
      (stream llm s u).state.phase ≠ Phase.homework →
      (stream llm s u).state.hw_assigned = false) := by
  constructor
  · intro s hs
    induction hs with
    | init => intro h; exact absurd h (by simp [initState])
    | step llm u h ih => exact stream_hw llm _ u
  · intro llm s u hph
    by_contra hc
    exact hph (stream_hw llm s u (by simpa using hc))

theorem c1_hw_invariant_witness :
    (stream (constLLM "homework") initState "hi").state.phase = Phase.homework :=
  c1_hw_invariant.1 _ (Reachable.step (constLLM "homework") "hi" Reachable.init) (by decide)

/-- Claim C2 counterexample: in the homework-wait state, the input
`"no thanks, not that exercise"` contains the acknowledgment token
`"thanks"`, so the interception transitions to `closing` (and the turn
ends in `agenda` after the closing reset) — not to `technique` as the
claim states. -/
theorem c2_counterexample :
    (streamResolved (constLLM "banana") sHW "no thanks, not that exercise").1.phase =
      Phase.closing ∧
    (stream (constLLM "banana") sHW "no thanks, not that exercise").state.phase ≠
      Phase.technique ∧
    (stream (constLLM "banana") sHW "no thanks, not that exercise").state.phase =
      Phase.agenda := by
  refine ⟨by decide, by decide, by decide⟩

/-- Claim C2 (amended): in the homework-wait state, a softened input
containing a decline token and the word `exercise` but no acknowledgment
token transitions to `technique` and resets `hw_assigned`. -/
theorem c2_decline_to_technique (llm : LLM) (s : State) (u : String)
    (h1 : s.phase = Phase.homework) (h2 : s.hw_assigned = true)
    (h3 : ack_tokens.any (fun tok => hasTok (lowerStr (soften u)) tok) = false)
    (h4 : decline_tokens.any (fun dt => hasTok (lowerStr (soften u)) dt) = true)
    (h5 : hasTok (lowerStr (soften u)) "exercise" = true) :
    (stream llm s u).state.phase = Phase.technique ∧
    (stream llm s u).state.hw_assigned = false := by
  unfold stream streamResolved resolveTurn
  simp [h1, h2, h3, h4, h5, dispatch]

theorem c2_decline_to_technique_witness :
    (stream (constLLM "banana") sHW "not that exercise").state.phase = Phase.technique ∧
    (stream (constLLM "banana") sHW "not that exercise").state.hw_assigned = false :=
  c2_decline_to_technique (constLLM "banana") sHW "not that exercise"
    (by decide) (by decide) (by decide) (by decide) (by decide)

/-- Claim C3 counterexample: in the homework-wait state, the input
`"hmm not sure"` contains the acknowledgment token `"sure"` as a
substring, so the turn transitions to `closing` (ending in `agenda`),
returns the closing chain's output instead of the waiting literal, and
makes a generation call — contradicting the claim. -/
theorem c3_counterexample :
    (stream (constLLM "banana") sHW "hmm not sure").state.phase ≠ Phase.homework ∧
    (stream (constLLM "banana") sHW "hmm not sure").output ≠ waitingPrompt ∧
    (stream (constLLM "banana") sHW "hmm not sure").calls ≠ [] := by
  refine ⟨by decide, by decide, by decide⟩

/-- Claim C3 (amended): in the homework-wait state, a softened input
with a decline token but neither the word `exercise` nor any
acknowledgment token leaves the phase at `homework`, returns the fixed
waiting-prompt literal, and makes no generation call. -/
theorem c3_ambiguous_waits (llm : LLM) (s : State) (u : String)
    (h1 : s.phase = Phase.homework) (h2 : s.hw_assigned = true)
    (h3 : ack_tokens.any (fun tok => hasTok (lowerStr (soften u)) tok) = false)
    (h4 : decline_tokens.any (fun dt => hasTok (lowerStr (soften u)) dt) = true)
    (h5 : hasTok (lowerStr (soften u)) "exercise" = false) :
    (stream llm s u).state.phase = Phase.homework ∧
    (stream llm s u).output = waitingPrompt ∧
    (stream llm s u).calls = [] := by
  unfold stream streamResolved resolveTurn
  simp [h1, h2, h3, h4, h5, dispatch]

theorem c3_ambiguous_waits_witness :
    (stream (constLLM "banana") sHW "hmm not today").state.phase = Phase.homework ∧
    (stream (constLLM "banana") sHW "hmm not today").output = waitingPrompt ∧
    (stream (constLLM "banana") sHW "hmm not today").calls = [] :=
  c3_ambiguous_waits (constLLM "banana") sHW "hmm not today"
    (by decide) (by decide) (by decide) (by decide) (by decide)

/-- Claim C4: in the homework-wait state, a softened input containing an
acknowledgment token makes the interception transition to `closing`,
and no phase-classification call is made during the whole turn. -/
theorem c4_ack_to_closing (llm : LLM) (s : State) (u : String)
    (h1 : s.phase = Phase.homework) (h2 : s.hw_assigned = true)
    (h3 : ack_tokens.any (fun tok => hasTok (lowerStr (soften u)) tok) = true) :
    (streamResolved llm s u).1.phase = Phase.closing ∧
    Call.classifyCall ∉ (stream llm s u).calls := by
  unfold stream streamResolved resolveTurn
  simp [h1, h2, h3, dispatch]

theorem c4_ack_to_closing_witness :
    (streamResolved (constLLM "banana") sHW "thanks, will try").1.phase = Phase.closing ∧
    Call.classifyCall ∉ (stream (constLLM "banana") sHW "thanks, will try").calls :=
  c4_ack_to_closing (constLLM "banana") sHW "thanks, will try"
    (by decide) (by decide) (by decide)

/-- Claim C5 counterexample: with phase `homework` and
`hw_assigned = false`, the turn is not intercepted, so the phase
selector runs first; if its reply maps to another phase (here
`"agenda"`), no Homework-template call is made at all and `hw_assigned`
stays `false` — contradicting the claim's "for any input". -/
theorem c5_counterexample :
    (stream (constLLM "agenda") sHWf "hello").calls =
      [Call.classifyCall, Call.agendaCall] ∧
    (stream (constLLM "agenda") sHWf "hello").state.hw_assigned = false := by
  refine ⟨by decide, by decide⟩

/-- Claim C5 (amended): with phase `homework` and `hw_assigned = false`
at the start of a turn, if the phase-classification reply maps to
`homework` or is unrecognized, the turn makes the classification call
plus exactly one Homework-template generation call, and afterwards
`hw_assigned = true`. -/
theorem c5_homework_once (llm : LLM) (s : State) (u : String)
    (h1 : s.phase = Phase.homework) (h2 : s.hw_assigned = false)
    (h3 : phaseMap (lowerStr (stripStr
            (llm.classify (s.history ++ [(Role.user, soften u)]) (soften u)))) =
            some Phase.homework ∨
          phaseMap (lowerStr (stripStr
            (llm.classify (s.history ++ [(Role.user, soften u)]) (soften u)))) = none) :
    (stream llm s u).calls = [Call.classifyCall, Call.homeworkCall] ∧
    (stream llm s u).state.hw_assigned = true ∧
    (stream llm s u).state.phase = Phase.homework := by
  unfold stream streamResolved resolveTurn
  rcases h3 with h3 | h3 <;> simp [h1, h2, h3, dispatch]

theorem c5_homework_once_witness :
    (stream (constLLM "homework") sHWf "please").calls =
      [Call.classifyCall, Call.homeworkCall] ∧
    (stream (constLLM "homework") sHWf "please").state.hw_assigned = true ∧
    (stream (constLLM "homework") sHWf "please").state.phase = Phase.homework :=
  c5_homework_once (constLLM "homework") sHWf "please"
    (by decide) (by decide) (Or.inl (by decide))

/-- Claim C6: when the turn's phase resolution ends at `closing`, the
dispatch invokes the Closing template, returns its output, and resets
the session to phase `agenda` with `hw_assigned = false`. -/
theorem c6_closing_resets (llm : LLM) (s : State) (u : String)
    (h : (streamResolved llm s u).1.phase = Phase.closing) :
    (stream llm s u).state.phase = Phase.agenda ∧
    (stream llm s u).state.hw_assigned = false ∧
    (stream llm s u).output =
      llm.closing (streamResolved llm s u).1.history (soften u) := by
  unfold stream
  rcases hr : streamResolved llm s u with ⟨s1, cs⟩
  rw [hr] at h
  obtain ⟨ph, hw, hist⟩ := s1
  simp only at h
  subst h
  simp [dispatch]

theorem c6_closing_resets_witness :
    (stream (constLLM "closing") initState "bye").state.phase = Phase.agenda ∧
    (stream (constLLM "closing") initState "bye").state.hw_assigned = false ∧
    (stream (constLLM "closing") initState "bye").output =
      (constLLM "closing").closing
        (streamResolved (constLLM "closing") initState "bye").1.history (soften "bye") :=
  c6_closing_resets (constLLM "closing") initState "bye" (by decide)

/-- Claim C7 counterexample: `soften` uses plain case-insensitive
substring substitution, so a trigger embedded inside the longer word
`"hopelessness"` IS replaced — contradicting the claimed whole-token
matching. -/
theorem c7_counterexample :
    soften "hopelessness" = "emotionally drainedness" ∧
    soften "hopelessness" ≠ "hopelessness" := by
  refine ⟨by decide, by decide⟩

/-- Claim C7 (amended): `soften` replaces each configured trigger word
as a case-insensitive substring (including occurrences embedded inside
longer words) and returns the input unchanged when no trigger occurs as
a case-insensitive substring. -/
theorem c7_soften_substring :
    (∀ t : String,
      hasSubL "hopeless".toList (lowerL t.toList) = false →
      hasSubL "depressed".toList (lowerL t.toList) = false →
      soften t = t) ∧
    soften "I feel hopeless and depressed" =
      "I feel emotionally drained and feeling low" ∧
    soften "HOPELESSness" = "emotionally drainedness" := by
  refine ⟨?_, by decide, by decide⟩
  intro t h1 h2
  obtain ⟨d⟩ := t
  unfold soften
  rw [replaceCI_id _ _ _ h1, replaceCI_id _ _ _ h2]
  rfl

theorem c7_soften_substring_witness : soften "I am fine" = "I am fine" :=
  c7_soften_substring.1 "I am fine" (by decide) (by decide)

/-- Claim C8: when the model-delegated phase selection runs (no
homework-wait interception), a reply normalizing to `"explore"` maps to
`exploration`; an unrecognized reply leaves the phase unchanged; and a
resolved phase other than `homework` comes with `hw_assigned = false`. -/
theorem c8_classifier_mapping (llm : LLM) (s : State) (u : String)
    (h : ¬ (s.phase = Phase.homework ∧ s.hw_assigned = true)) :
    (lowerStr (stripStr
        (llm.classify (s.history ++ [(Role.user, soften u)]) (soften u))) = "explore" →
      (streamResolved llm s u).1.phase = Phase.exploration) ∧
    (phaseMap (lowerStr (stripStr
        (llm.classify (s.history ++ [(Role.user, soften u)]) (soften u)))) = none →
      (streamResolved llm s u).1.phase = s.phase) ∧
    ((streamResolved llm s u).1.phase ≠ Phase.homework →
      (streamResolved llm s u).1.hw_assigned = false) := by
  have hcond : ¬ ((State.mk s.phase s.hw_assigned
      (s.history ++ [(Role.user, soften u)])).phase = Phase.homework ∧
      (State.mk s.phase s.hw_assigned
        (s.history ++ [(Role.user, soften u)])).hw_assigned = true) := by
    simpa using h
  unfold streamResolved resolveTurn
  rw [if_neg hcond]
  dsimp only
  refine ⟨?_, ?_, ?_⟩
  · intro hsel
    rw [hsel]
    simp [phaseMap]
  · intro hsel
    rw [hsel]
    dsimp only
    split
    · rfl
    · rfl
  · split
    · intro _; rfl
    · rename_i hne; intro hc; exact absurd (by simpa using hne) hc

theorem c8_classifier_mapping_witness :
    (streamResolved (constLLM "ExPlOrE") initState "hi").1.phase = Phase.exploration :=
  (c8_classifier_mapping (constLLM "ExPlOrE") initState "hi" (by decide)).1 (by decide)

/-- Claim C9: construction fails when the credential is missing, and
succeeds with initial phase `agenda` and `hw_assigned = false` when a
nonempty credential is present. -/
theorem c9_construction :
    (initCBT none).isOk = false ∧
    (∀ k : String, k ≠ "" →
      initCBT (some k) =
        Except.ok { phase := Phase.agenda, hw_assigned := false, history := [] }) := by
  refine ⟨rfl, ?_⟩
  intro k hk
  simp only [initCBT]
  rw [if_neg hk]
  rfl

theorem c9_construction_witness :
    initCBT (some "sk-test") =
      Except.ok { phase := Phase.agenda, hw_assigned := false, history := [] } :=
  c9_construction.2 "sk-test" (by decide)

/-- Claim C10: in the homework-wait interception, the acknowledgment
check precedes the decline check: text containing both an acknowledgment
token and a decline token together with the word `exercise` resolves to
`closing`, not `technique`. -/
theorem c10_ack_precedence (llm : LLM) (s : State) (u : String)
    (h1 : s.phase = Phase.homework) (h2 : s.hw_assigned = true)
    (h3 : ack_tokens.any (fun tok => hasTok (lowerStr (soften u)) tok) = true)
    (_h4 : decline_tokens.any (fun dt => hasTok (lowerStr (soften u)) dt) = true)
    (_h5 : hasTok (lowerStr (soften u)) "exercise" = true) :
    (streamResolved llm s u).1.phase = Phase.closing ∧
    (streamResolved llm s u).1.phase ≠ Phase.technique := by
  unfold streamResolved resolveTurn
  simp [h1, h2, h3]

theorem c10_ack_precedence_witness :
    (streamResolved (constLLM "banana") sHW "yes but not that exercise").1.phase =
      Phase.closing ∧
    (streamResolved (constLLM "banana") sHW "yes but not that exercise").1.phase ≠
      Phase.technique :=
  c10_ack_precedence (constLLM "banana") sHW "yes but not that exercise"
    (by decide) (by decide) (by decide) (by decide) (by decide)

end CBTChatbot
